import Mathlib

/-!
Shallow embedding of the receipt-filing app's text-interpretation engine
(`src/services/ocr_service.py`) and category classifier
(`src/config/categories.py`).

Text is modelled as `List Char`.  Python regex character classes are
modelled at ASCII precision (`\d` as ASCII digits, `\s` as ASCII
whitespace, `str.lower` as ASCII lowering); all inputs appearing in the
concrete theorems below stay inside that fragment, and the Chinese
characters occurring in the configuration data are untouched by either
the Python or the Lean versions of these operations.
-/

namespace ReceiptApp

/-- ASCII whitespace, the characters stripped by Python `str.strip()` and
matched by `\s` on the inputs considered here. -/
def isPySpace (c : Char) : Bool :=
  c = ' ' || c = '\t' || c = '\n' || c = '\r' || c = '\x0b' || c = '\x0c'

/-- Python `str.strip()`. -/
def pyStrip (l : List Char) : List Char :=
  ((l.dropWhile isPySpace).reverse.dropWhile isPySpace).reverse

/-- Python `str.lower()` (ASCII fragment; other characters unchanged). -/
def toLowerL (l : List Char) : List Char :=
  l.map Char.toLower

/-- Python `text.split('\n')`: splitting on every newline, keeping empty
pieces (so `"" → [""]` and a trailing newline yields a trailing `""`). -/
def splitOnNl : List Char → List (List Char)
  | [] => [[]]
  | c :: rest =>
    if c = '\n' then [] :: splitOnNl rest
    else
      match splitOnNl rest with
      | l :: ls => (c :: l) :: ls
      | [] => [[c]]

/-- Python `needle in haystack` substring containment. -/
def containsSub (needle : List Char) : List Char → Bool
  | [] => needle.isEmpty
  | c :: rest => needle.isPrefixOf (c :: rest) || containsSub needle rest

/-- Date separator class (dash or slash) of the date regexes. -/
def isDateSep (c : Char) : Bool := c = '-' || c = '/'

/-- Take exactly `n` leading ASCII digits, returning them and the rest. -/
def takeExactDigits : Nat → List Char → Option (List Char × List Char)
  | 0, cs => some ([], cs)
  | _ + 1, [] => none
  | n + 1, c :: cs =>
    if c.isDigit then (takeExactDigits n cs).map (fun p => (c :: p.1, p.2)) else none

/-- Try a list of candidate quantifier lengths in order (regex greedy
backtracking tries the longer length first, so the lists below are
descending). -/
def firstLen {α : Type} (f : Nat → Option α) : List Nat → Option α
  | [] => none
  | n :: ns => (f n).orElse fun _ => firstLen f ns

/-- Match, anchored at the head of `cs`, the regex shape
digits(g1) sep digits(g2) sep digits(g3) where each `gᵢ` is a list of admissible
digit-group lengths in greedy (descending) order; returns the matched
substring.  This is the common shape of the three date patterns of
`_extract_date`. -/
def matchTripleAt (g1 g2 g3 : List Nat) (cs : List Char) : Option (List Char) :=
  firstLen (fun n1 =>
    (takeExactDigits n1 cs).bind fun p1 =>
      match p1.2 with
      | s1 :: r1 =>
        if isDateSep s1 then
          firstLen (fun n2 =>
            (takeExactDigits n2 r1).bind fun p2 =>
              match p2.2 with
              | s2 :: r2 =>
                if isDateSep s2 then
                  firstLen (fun n3 =>
                    (takeExactDigits n3 r2).map (fun p3 =>
                      p1.1 ++ s1 :: (p2.1 ++ s2 :: p3.1)))
                    g3
                else none
              | [] => none)
            g2
        else none
      | [] => none)
    g1

/-- Python `re.search` for a triple date pattern: leftmost match wins. -/
def reSearchTriple (g1 g2 g3 : List Nat) : List Char → Option (List Char)
  | [] => matchTripleAt g1 g2 g3 []
  | c :: rest =>
    (matchTripleAt g1 g2 g3 (c :: rest)).orElse fun _ => reSearchTriple g1 g2 g3 rest

/-- Numeric value of a digit character. -/
def digitVal (c : Char) : Nat := c.toNat - '0'.toNat

/-- The `%m` directive of Python `strptime`: regex `1[0-2]|0[1-9]|[1-9]`.
When two digits are available the two-digit alternatives must be used
(choosing the one-digit alternative would leave a digit where the format
next demands a separator or the end of input, so the overall parse fails
either way); the function therefore commits to the two-digit reading. -/
def parseMonth : List Char → Option (Nat × List Char)
  | [] => none
  | c1 :: rest =>
    if c1.isDigit then
      match rest with
      | c2 :: rest' =>
        if c2.isDigit then
          let v := 10 * digitVal c1 + digitVal c2
          if 1 ≤ v ∧ v ≤ 12 then some (v, rest') else none
        else if 1 ≤ digitVal c1 then some (digitVal c1, rest) else none
      | [] => if 1 ≤ digitVal c1 then some (digitVal c1, []) else none
    else none

/-- The `%d` directive of Python `strptime`: regex `3[01]|[12]\d|0[1-9]|[1-9]`
(values 1–31), committing to two digits when two are available, as for
`parseMonth`. -/
def parseDay : List Char → Option (Nat × List Char)
  | [] => none
  | c1 :: rest =>
    if c1.isDigit then
      match rest with
      | c2 :: rest' =>
        if c2.isDigit then
          let v := 10 * digitVal c1 + digitVal c2
          if 1 ≤ v ∧ v ≤ 31 then some (v, rest') else none
        else if 1 ≤ digitVal c1 then some (digitVal c1, rest) else none
      | [] => if 1 ≤ digitVal c1 then some (digitVal c1, []) else none
    else none

/-- The `%Y` directive of Python `strptime`: exactly four digits. -/
def parseYear4 (cs : List Char) : Option (Nat × List Char) :=
  (takeExactDigits 4 cs).map (fun p => (p.1.foldl (fun n c => 10 * n + digitVal c) 0, p.2))

/-- The `%y` directive of Python `strptime`: exactly two digits, mapped to
2000–2068 for values ≤ 68 and to 1969–1999 otherwise. -/
def parseYear2 (cs : List Char) : Option (Nat × List Char) :=
  (takeExactDigits 2 cs).map (fun p =>
    let v := p.1.foldl (fun n c => 10 * n + digitVal c) 0
    (if v ≤ 68 then 2000 + v else 1900 + v, p.2))

/-- Expect a specific literal character. -/
def expectChar (sep : Char) : List Char → Option (List Char)
  | [] => none
  | c :: rest => if c = sep then some rest else none

/-- A calendar date as produced by a successful `datetime.strptime`. -/
structure Date where
  year : Nat
  month : Nat
  day : Nat
deriving DecidableEq, Repr

/-- Gregorian leap-year test, as used by Python `datetime`. -/
def isLeap (y : Nat) : Bool :=
  (y % 4 = 0 && y % 100 ≠ 0) || y % 400 = 0

/-- Number of days in a month, as validated by Python `datetime`. -/
def daysInMonth (y m : Nat) : Nat :=
  if m = 2 then (if isLeap y then 29 else 28)
  else if m = 4 ∨ m = 6 ∨ m = 9 ∨ m = 11 then 30
  else 31

/-- Validity checks performed by the `datetime` constructor: year within
`MINYEAR..MAXYEAR` and day within the month (month and day lower bounds
are already enforced by the directive regexes). -/
def mkValidDate (y m d : Nat) : Option Date :=
  if 1 ≤ y ∧ y ≤ 9999 ∧ d ≤ daysInMonth y m then some ⟨y, m, d⟩ else none

/-- `strptime` against a `%Y sep %m sep %d` format. -/
def fmtYmd (sep : Char) (cs : List Char) : Option Date :=
  (parseYear4 cs).bind fun py =>
    (expectChar sep py.2).bind fun r1 =>
      (parseMonth r1).bind fun pm =>
        (expectChar sep pm.2).bind fun r2 =>
          (parseDay r2).bind fun pd =>
            if pd.2 = [] then mkValidDate py.1 pm.1 pd.1 else none

/-- `strptime` against a `%d sep %m sep %Y` format. -/
def fmtDmY (sep : Char) (cs : List Char) : Option Date :=
  (parseDay cs).bind fun pd =>
    (expectChar sep pd.2).bind fun r1 =>
      (parseMonth r1).bind fun pm =>
        (expectChar sep pm.2).bind fun r2 =>
          (parseYear4 r2).bind fun py =>
            if py.2 = [] then mkValidDate py.1 pm.1 pd.1 else none

/-- `strptime` against a `%m sep %d sep %Y` format. -/
def fmtMdY (sep : Char) (cs : List Char) : Option Date :=
  (parseMonth cs).bind fun pm =>
    (expectChar sep pm.2).bind fun r1 =>
      (parseDay r1).bind fun pd =>
        (expectChar sep pd.2).bind fun r2 =>
          (parseYear4 r2).bind fun py =>
            if py.2 = [] then mkValidDate py.1 pm.1 pd.1 else none

/-- `strptime` against a `%d sep %m sep %y` format. -/
def fmtDmy (sep : Char) (cs : List Char) : Option Date :=
  (parseDay cs).bind fun pd =>
    (expectChar sep pd.2).bind fun r1 =>
      (parseMonth r1).bind fun pm =>
        (expectChar sep pm.2).bind fun r2 =>
          (parseYear2 r2).bind fun py =>
            if py.2 = [] then mkValidDate py.1 pm.1 pd.1 else none

/-- `strptime` against a `%m sep %d sep %y` format. -/
def fmtMdy (sep : Char) (cs : List Char) : Option Date :=
  (parseMonth cs).bind fun pm =>
    (expectChar sep pm.2).bind fun r1 =>
      (parseDay r1).bind fun pd =>
        (expectChar sep pd.2).bind fun r2 =>
          (parseYear2 r2).bind fun py =>
            if py.2 = [] then mkValidDate py.1 pm.1 pd.1 else none

/-- The inner loop of `_extract_date`: try the six candidate formats
`%Y-%m-%d`, `%Y/%m/%d`, `%d-%m-%Y`, `%m/%d/%Y`, `%d-%m-%y`, `%m/%d/%y`
in this fixed order and return the first one that parses. -/
def strptime6 (cs : List Char) : Option Date :=
  (fmtYmd '-' cs).orElse fun _ =>
    (fmtYmd '/' cs).orElse fun _ =>
      (fmtDmY '-' cs).orElse fun _ =>
        (fmtMdY '/' cs).orElse fun _ =>
          (fmtDmy '-' cs).orElse fun _ =>
            fmtMdy '/' cs

/-- One iteration of the pattern loop of `_extract_date`: search for the
pattern; on a positional match, try the six formats on the matched
substring.  Both a missing match and a match failing all six formats
make the loop continue with the next pattern. -/
def tryDatePattern (g1 g2 g3 : List Nat) (text : List Char) : Option Date :=
  (reSearchTriple g1 g2 g3 text).bind strptime6

/-- `OCRService._extract_date`: the three regex pattern classes
digits(4) sep digits(1..2) sep digits(1..2), digits(1..2) sep digits(1..2)
sep digits(4), digits(1..2) sep digits(1..2) sep digits(2), with sep one of
dash or slash, tried in order. -/
def extract_date (text : List Char) : Option Date :=
  (tryDatePattern [4] [2, 1] [2, 1] text).orElse fun _ =>
    (tryDatePattern [2, 1] [2, 1] [4] text).orElse fun _ =>
      tryDatePattern [2, 1] [2, 1] [2] text

/-- Anchored regex `^\d+(sep)\d+(sep)\d+` prefix step: consume one or more
digits then one separator (greedy maximal digit run; the separator is not
a digit, so maximal munch is exact). -/
def digitsThenSep (l : List Char) : Option (List Char) :=
  let r := l.takeWhile Char.isDigit
  if r.isEmpty then none
  else
    match l.drop r.length with
    | s :: t => if isDateSep s then some t else none
    | [] => none

/-- Python `re.match` of the anchored date-like pattern used by
`_extract_merchant` and `_extract_items`. -/
def dateLikeStart (l : List Char) : Bool :=
  match digitsThenSep l with
  | none => false
  | some t1 =>
    match digitsThenSep t1 with
    | none => false
    | some t2 => !(t2.takeWhile Char.isDigit).isEmpty

/-- Python `re.search` of the dollar-amount pattern (a dollar sign
immediately followed by at least one digit) used by `_extract_merchant`. -/
def hasDollarDigit : List Char → Bool
  | c :: d :: rest => (c = '$' && d.isDigit) || hasDollarDigit (d :: rest)
  | _ => false

/-- Python `re.search` of the decimal-number pattern (a digit, a dot, a
digit somewhere in the line) used by `_extract_merchant`. -/
def hasDecimalNum : List Char → Bool
  | a :: b :: c :: rest => (a.isDigit && b = '.' && c.isDigit) || hasDecimalNum (b :: c :: rest)
  | _ => false

/-- The stopword list of `_extract_merchant`. -/
def merchant_skip_words : List (List Char) :=
  ["receipt".data, "invoice".data, "date".data, "time".data, "total".data,
   "amount".data, "tax".data, "subtotal".data, "sum".data]

/-- The line filter of `_extract_merchant`, applied to the stripped line:
length strictly greater than 2, no leading date-like pattern, no
stopword substring in the lowered line, no dollar amount, no decimal
number. -/
def merchantKeep (l : List Char) : Bool :=
  decide (2 < l.length) && !dateLikeStart l
    && !(merchant_skip_words.any fun w => containsSub w (toLowerL l))
    && !hasDollarDigit l && !hasDecimalNum l

/-- `OCRService._extract_merchant`: iterate over the first five lines of
the newline-split text (`lines[:5]`, blank lines included), strip each,
and return the first one passing `merchantKeep`. -/
def extract_merchant (text : List Char) : Option (List Char) :=
  ((splitOnNl text).take 5).findSome? fun line =>
    if merchantKeep (pyStrip line) then some (pyStrip line) else none

/-- Match, anchored at the head of `cs`, the regex group
`[0-9,]+\.?\d*`: a maximal nonempty run of digits and commas, then an
optional dot followed by a maximal run of digits.  Returns the matched
group and the rest.  The trailing parts have no following constraint
inside the group, so greedy maximal munch is exact. -/
def matchGroupNum (cs : List Char) : Option (List Char × List Char) :=
  let r1 := cs.takeWhile fun c => c.isDigit || c = ','
  if r1.isEmpty then none
  else
    match cs.drop r1.length with
    | '.' :: t2 =>
      let r2 := t2.takeWhile Char.isDigit
      some (r1 ++ '.' :: r2, t2.drop r2.length)
    | t1 => some (r1, t1)

/-- Case-insensitive literal prefix strip (the effect of `re.IGNORECASE`
on the literal currency markers). -/
def stripCI : List Char → List Char → Option (List Char)
  | [], cs => some cs
  | _ :: _, [] => none
  | p :: ps, c :: cs => if p.toLower = c.toLower then stripCI ps cs else none

/-- Match, anchored at the head of `cs`, one of the currency-marker
patterns of `_extract_amount_and_currency`:
literal marker (case-insensitive), then an optional dollar sign when
`optDollar` is true, then optional whitespace, then the numeric group.
Covers the patterns for NT, HK, US (with `optDollar := true`) and the
bare-dollar pattern (marker the dollar sign itself, `optDollar := false`).
Returns the captured numeric group. -/
def matchCurrencyAt (marker : List Char) (optDollar : Bool) (cs : List Char) : Option (List Char) :=
  (stripCI marker cs).bind fun rest =>
    let rest2 := if optDollar then
      match rest with
      | '$' :: r => r
      | _ => rest
    else rest
    (matchGroupNum (rest2.dropWhile isPySpace)).map Prod.fst

/-- Match, anchored at the head of `cs`, the yuan pattern
`([0-9,]+\.?\d*)\s*元`, returning the captured numeric group. -/
def matchYuanAt (cs : List Char) : Option (List Char) :=
  (matchGroupNum cs).bind fun p =>
    match p.2.dropWhile isPySpace with
    | '元' :: _ => some p.1
    | _ => none

/-- Python `re.search` with an anchored matcher: try every start position
from the left and return the first (leftmost) match. -/
def reSearchWith {α : Type} (m : List Char → Option α) : List Char → Option α
  | [] => m []
  | c :: rest => (m (c :: rest)).orElse fun _ => reSearchWith m rest

/-- Python `Decimal(s)` restricted to the strings producible by the
captured numeric group after comma removal: an optional run of digits, an
optional dot, an optional run of digits, with at least one digit overall.
The value is returned as an exact rational. -/
def pyDecimal (s : List Char) : Option ℚ :=
  let ip := s.takeWhile Char.isDigit
  let natOf : List Char → Nat := fun ds => ds.foldl (fun n c => 10 * n + digitVal c) 0
  match s.drop ip.length with
  | [] => if ip.isEmpty then none else some (mkRat (natOf ip) 1)
  | '.' :: fp =>
    if fp.all Char.isDigit && !(ip.isEmpty && fp.isEmpty) then
      some (mkRat (natOf ip * 10 ^ fp.length + natOf fp) (10 ^ fp.length))
    else none
  | _ => none

/-- The `currency_patterns` table of `_extract_amount_and_currency`, in
its fixed priority order, each entry paired with its currency tag. -/
def currencyPatterns : List ((List Char → Option (List Char)) × String) :=
  [(matchCurrencyAt "NT".data true, "NTD"),
   (matchCurrencyAt "HK".data true, "HKD"),
   (matchCurrencyAt "US".data true, "USD"),
   (matchCurrencyAt "$".data false, "USD"),
   (matchYuanAt, "NTD")]

/-- The inner pattern loop of `_extract_amount_and_currency`: for each
pattern in priority order, search `s`; on a match, strip commas from the
captured group and parse it as a decimal; a group failing to parse makes
the loop continue with the next pattern. -/
def tryPatterns (s : List Char) : Option (ℚ × String) :=
  currencyPatterns.findSome? fun pc =>
    (reSearchWith pc.1 s).bind fun g =>
      (pyDecimal (g.filter fun c => c ≠ ',')).map fun a => (a, pc.2)

/-- Pass 1 of `_extract_amount_and_currency` on one line: only lines whose
lowering contains "total" but not "subtotal" are tried. -/
def pass1Line (l : List Char) : Option (ℚ × String) :=
  if containsSub "total".data (toLowerL l) && !containsSub "subtotal".data (toLowerL l) then
    tryPatterns l
  else none

/-- The `total_keywords` list of `_extract_amount_and_currency`. -/
def total_keywords : List (List Char) :=
  ["total".data, "amount".data, "sum".data, "合計".data, "總計".data, "小計".data]

/-- Pass 2 of `_extract_amount_and_currency` on one line: lines whose
lowering contains any of the total keywords are tried. -/
def pass2Line (l : List Char) : Option (ℚ × String) :=
  if total_keywords.any (fun k => containsSub k (toLowerL l)) then tryPatterns l
  else none

/-- The three sequential passes of `_extract_amount_and_currency`:
line-restricted pass 1, line-restricted pass 2, then the whole text. -/
def amountResult (text : List Char) : Option (ℚ × String) :=
  (((splitOnNl text).findSome? pass1Line).orElse fun _ =>
    (splitOnNl text).findSome? pass2Line).orElse fun _ =>
      tryPatterns text

/-- The dictionary returned by `_extract_amount_and_currency`: both keys
present on success, both absent when all passes fail. -/
structure AmountInfo where
  amount : Option ℚ
  currency : Option String
deriving Repr, DecidableEq

/-- `OCRService._extract_amount_and_currency`. -/
def extract_amount_and_currency (text : List Char) : AmountInfo :=
  match amountResult text with
  | some p => { amount := some p.1, currency := some p.2 }
  | none => { amount := none, currency := none }

/-- The line filter of `_extract_items`, applied to the stripped line. -/
def itemKeep (l : List Char) : Bool :=
  decide (2 < l.length) && !dateLikeStart l
    && !(["total".data, "amount".data, "合計".data, "總計".data].any fun w =>
          containsSub w (toLowerL l))

/-- `OCRService._extract_items`: keep the stripped lines passing
`itemKeep` in encounter order, truncated to the first 10. -/
def extract_items (text : List Char) : List (List Char) :=
  (((splitOnNl text).map pyStrip).filter itemKeep).take 10

/-- The `ReceiptData` record (`src/models/receipt.py`) as populated by
interpretation; `confidence` and `category` are passthrough fields not
touched by the embedded code and are omitted. -/
structure ReceiptData where
  date : Option Date := none
  merchant : Option (List Char) := none
  amount : Option ℚ := none
  currency : Option String := none
  items : List (List Char) := []
  raw_text : Option (List Char) := none

/-- `OCRService._parse_receipt_text`: run the four extractors on the same
raw text.  The function is total by construction, the embedding of the
fact that the Python code catches every parse failure internally and
never raises. -/
def parse_receipt_text (text : List Char) : ReceiptData :=
  { date := extract_date text,
    merchant := extract_merchant text,
    amount := (extract_amount_and_currency text).amount,
    currency := (extract_amount_and_currency text).currency,
    items := extract_items text }

/-- One category rule: keyword list and merchant-substring list. -/
structure CatConfig where
  keywords : List (List Char)
  merchants : List (List Char)
deriving Repr, DecidableEq

/-- A Python `dict` from category names to rules, modelled as an
insertion-ordered association list. -/
abbrev CatTable := List (List Char × CatConfig)

/-- Python `d[k] = v` on an insertion-ordered dict: update the (unique)
entry in place when the key exists, append otherwise. -/
def dictSet : CatTable → List Char → CatConfig → CatTable
  | [], k, v => [(k, v)]
  | p :: rest, k, v => if p.1 = k then (k, v) :: rest else p :: dictSet rest k v

/-- Python `{**a, **b}`: fold the entries of `b` into `a`; on a key
collision `b`'s value wins while the key keeps `a`'s position. -/
def dictMergeInto (a b : CatTable) : CatTable :=
  b.foldl (fun acc p => dictSet acc p.1 p.2) a

/-- Python `d.get`-style lookup returning the first entry for a key. -/
def dictGet (d : CatTable) (k : List Char) : Option CatConfig :=
  (d.find? fun p => decide (p.1 = k)).map Prod.snd

/-- Value of the last entry of an association list carrying a key, the
value that a left-to-right sequence of `dictSet` insertions would leave
in a dict for that key. -/
def lastVal : CatTable → List Char → Option CatConfig
  | [], _ => none
  | p :: rest, k =>
    match lastVal rest k with
    | some v => some v
    | none => if p.1 = k then some p.2 else none

/-- The `default_categories` table of `CategoryConfig.__init__`, in source
order. -/
def default_categories : CatTable :=
  [("Food & Dining".data,
    { keywords := ["restaurant".data, "餐廳".data, "cafe".data, "咖啡".data, "food".data,
                   "食物".data, "dining".data, "meal".data, "飯店".data, "bar".data, "酒吧".data],
      merchants := ["mcdonalds".data, "starbucks".data, "subway".data, "麥當勞".data, "星巴克".data] }),
   ("Transportation".data,
    { keywords := ["uber".data, "taxi".data, "計程車".data, "mrt".data, "捷運".data, "bus".data,
                   "公車".data, "train".data, "火車".data, "parking".data, "停車".data],
      merchants := ["uber".data, "grab".data, "taxi".data, "mrt".data] }),
   ("Shopping".data,
    { keywords := ["mart".data, "超市".data, "store".data, "商店".data, "shop".data, "購物".data,
                   "market".data, "市場".data, "mall".data, "商場".data],
      merchants := ["7-eleven".data, "familymart".data, "walmart".data, "target".data,
                    "全家".data, "7-11".data] }),
   ("Utilities".data,
    { keywords := ["electric".data, "電力".data, "water".data, "水費".data, "gas".data, "瓦斯".data,
                   "internet".data, "網路".data, "phone".data, "電話".data],
      merchants := ["台電".data, "自來水".data, "中華電信".data] }),
   ("Healthcare".data,
    { keywords := ["hospital".data, "醫院".data, "clinic".data, "診所".data, "pharmacy".data,
                   "藥局".data, "doctor".data, "醫生".data, "medical".data, "醫療".data],
      merchants := ["hospital".data, "clinic".data] }),
   ("Entertainment".data,
    { keywords := ["movie".data, "電影".data, "cinema".data, "戲院".data, "game".data, "遊戲".data,
                   "book".data, "書".data, "music".data, "音樂".data],
      merchants := ["netflix".data, "spotify".data, "cinema".data] }),
   ("Office Supplies".data,
    { keywords := ["stationery".data, "文具".data, "office".data, "辦公".data, "paper".data,
                   "紙張".data, "pen".data, "筆".data, "computer".data, "電腦".data],
      merchants := ["office depot".data, "staples".data] }),
   ("Other".data, { keywords := [], merchants := [] })]

/-- Word character of the regex `\b` boundary: ASCII alphanumerics and
underscore, with every non-ASCII character (in particular the Chinese
characters of the rule tables) treated as a word character. -/
def isWordChar (c : Char) : Bool :=
  c.isAlphanum || c = '_' || decide (128 ≤ c.toNat)

/-- Word-character test lifted to a possibly-missing neighbour (the
virtual characters before the start and after the end of a string are
non-word). -/
def isWordOpt : Option Char → Bool
  | some c => isWordChar c
  | none => false

/-- Match of the pattern `\b kw \b` (with `kw` a nonempty escaped
literal) anchored at the head of `s`, with `prev` the character
immediately before this position: the literal occurs here and a
word/non-word transition holds at both ends. -/
def wbHere (kw : List Char) (prev : Option Char) (s : List Char) : Bool :=
  match kw.head?, kw.getLast? with
  | some k0, some kl =>
    kw.isPrefixOf s && (isWordOpt prev != isWordChar k0)
      && (isWordOpt (s.drop kw.length).head? != isWordChar kl)
  | _, _ => false

/-- Scan of `\b kw \b` over all positions of a string. -/
def wbSearchAux (kw : List Char) (prev : Option Char) : List Char → Bool
  | [] => wbHere kw prev []
  | c :: rest => wbHere kw prev (c :: rest) || wbSearchAux kw (some c) rest

/-- Python `re.search(r'\b' + re.escape(kw) + r'\b', text)` as used by
the keyword check of `categorize_receipt`. -/
def wbSearch (kw text : List Char) : Bool :=
  wbSearchAux kw none text

/-- Python falsiness of an optional string (`None` or empty). -/
def pyFalsy : Option (List Char) → Bool
  | none => true
  | some s => s.isEmpty

/-- The per-rule check of `categorize_receipt`: any merchant substring of
the rule contained in the lowered merchant, or any keyword of the rule
matching with word boundaries in the lowered text or lowered merchant.
In the Python loop the merchant check runs before the keyword check, but
both return the same category for this rule, so the two branches are
merged into one disjunction. -/
def ruleHit (text merchant : List Char) (cfg : CatConfig) : Bool :=
  cfg.merchants.any (fun mp => containsSub (toLowerL mp) merchant)
    || cfg.keywords.any (fun kw => wbSearch (toLowerL kw) text || wbSearch (toLowerL kw) merchant)

/-- The combined rule table evaluated by `categorize_receipt`:
`{**self.custom_categories, **self.default_categories}` — the default
entry's value wins on a name collision. -/
def combinedTable (custom : CatTable) : CatTable :=
  dictMergeInto custom default_categories

/-- `CategoryConfig.categorize_receipt`, with the mutable
`custom_categories` dict passed explicitly. -/
def categorize_receipt (custom : CatTable) (r : ReceiptData) : List Char :=
  if pyFalsy r.merchant && pyFalsy r.raw_text then "Other".data
  else
    match (combinedTable custom).findSome? (fun p =>
        if ruleHit (toLowerL (r.raw_text.getD [])) (toLowerL (r.merchant.getD [])) p.2
        then some p.1 else none) with
    | some c => c
    | none => "Other".data

/-- Modelled from the spec: the classification the specification
describes, identical to `categorize_receipt` except that the combined
rule table is merged in the direction that lets a custom entry's sets
take precedence over a default entry's on a name collision. -/
def categorize_receipt_specCustomPrecedence (custom : CatTable) (r : ReceiptData) : List Char :=
  if pyFalsy r.merchant && pyFalsy r.raw_text then "Other".data
  else
    match (dictMergeInto default_categories custom).findSome? (fun p =>
        if ruleHit (toLowerL (r.raw_text.getD [])) (toLowerL (r.merchant.getD [])) p.2
        then some p.1 else none) with
    | some c => c
    | none => "Other".data

/-- `CategoryConfig.get_all_categories`:
`{**self.default_categories, **self.custom_categories}` — the custom
entry's value wins on a name collision. -/
def get_all_categories (custom : CatTable) : CatTable :=
  dictMergeInto default_categories custom

/-- `CategoryConfig.add_custom_category`: dict assignment on the custom
table. -/
def add_custom_category (custom : CatTable) (name : List Char)
    (keywords merchants : List (List Char)) : CatTable :=
  dictSet custom name { keywords := keywords, merchants := merchants }

/-- The merchant skip filter in the specification's wording: skip a line
when its length is at most 2, or it has a leading date-like pattern, or
it contains a stopword case-insensitively, or it contains a
dollar-amount or decimal-number pattern. -/
def merchantSpecSkip (l : List Char) : Bool :=
  decide (l.length ≤ 2) || dateLikeStart l
    || (merchant_skip_words.any fun w => containsSub w (toLowerL l))
    || hasDollarDigit l || hasDecimalNum l

/-- Merchant extraction as the specification describes it, amended on the
window only: the first 5 lines of the newline-split text (blank lines
included, each trimmed, a blank line then failing the length filter),
returning the first trimmed line not skipped. -/
def merchantSpecFirst5Raw (text : List Char) : Option (List Char) :=
  (((splitOnNl text).take 5).map pyStrip).findSome? fun l =>
    if merchantSpecSkip l then none else some l

/-- Merchant extraction as the claim states it: a window of the first 5
non-empty trimmed lines (blank lines consuming no slot), returning the
first line of the window not skipped. -/
def merchantClaimNonEmpty5 (text : List Char) : Option (List Char) :=
  ((((splitOnNl text).map pyStrip).filter fun l => !l.isEmpty).take 5).findSome? fun l =>
    if merchantSpecSkip l then none else some l

end ReceiptApp

namespace ReceiptApp

/-- `findSome?` over a mapped list is `findSome?` of the composition. -/
theorem findSome?_map_comp {α β γ : Type} (g : α → β) (f : β → Option γ) :
    ∀ l : List α, (l.map g).findSome? f = l.findSome? (fun a => f (g a))
  | [] => rfl
  | a :: l => by
    simp only [List.map_cons, List.findSome?]
    cases f (g a) with
    | none => simpa using findSome?_map_comp g f l
    | some b => rfl

/-- If `f` is `none` on every element of `l` strictly before index `i`
and `some v` at index `i`, then `findSome? f l = some v`. -/
theorem findSome?_of_first {α β : Type} (f : α → Option β) :
    ∀ (l : List α) (i : Nat) (hi : i < l.length) (v : β),
      f (l.get ⟨i, hi⟩) = some v →
      (∀ j (hj : j < i), f (l.get ⟨j, Nat.lt_trans hj hi⟩) = none) →
      l.findSome? f = some v
  | [], i, hi, v, _, _ => absurd hi (by simp)
  | a :: l, i, hi, v, hv, hnone => by
    cases i with
    | zero =>
      simp only [List.findSome?]
      rw [show f a = some v from hv]
    | succ i' =>
      have h0 : f a = none := hnone 0 (Nat.succ_pos i')
      simp only [List.findSome?, h0]
      exact findSome?_of_first f l i' (Nat.lt_of_succ_lt_succ hi) v hv
        (fun j hj => hnone (j + 1) (Nat.succ_lt_succ hj))

/-- The code's merchant line filter agrees with the negation of the
specification's skip filter. -/
theorem merchantKeep_eq_not_skip (l : List Char) :
    merchantKeep l = !merchantSpecSkip l := by
  unfold merchantKeep merchantSpecSkip
  simp only [Bool.not_or, ← Bool.and_assoc]
  congr 1
  congr 1
  congr 1
  congr 1
  rw [← decide_not]
  exact decide_eq_decide.mpr (by omega)

/-- Looking up the key just set returns the value just set. -/
theorem dictGet_dictSet_self (k : List Char) (v : CatConfig) :
    ∀ d : CatTable, dictGet (dictSet d k v) k = some v
  | [] => by simp [dictSet, dictGet, List.find?]
  | p :: rest => by
    unfold dictSet
    by_cases h : p.1 = k
    · simp [h, dictGet, List.find?]
    · simp only [if_neg h]
      unfold dictGet
      unfold List.find?
      rw [show (decide (p.1 = k)) = false from decide_eq_false h]
      exact dictGet_dictSet_self k v rest

/-- Setting one key leaves lookups of other keys unchanged. -/
theorem dictGet_dictSet_ne (k k' : List Char) (v : CatConfig) (hne : k' ≠ k) :
    ∀ d : CatTable, dictGet (dictSet d k v) k' = dictGet d k'
  | [] => by
    simp [dictSet, dictGet, List.find?, decide_eq_false (Ne.symm hne)]
  | p :: rest => by
    unfold dictSet
    by_cases h : p.1 = k
    · subst h
      simp [dictGet, List.find?, decide_eq_false (Ne.symm hne),
        decide_eq_false (fun hc : p.1 = k' => hne hc.symm)]
    · simp only [if_neg h]
      unfold dictGet
      unfold List.find?
      cases hd : decide (p.1 = k')
      · exact dictGet_dictSet_ne k k' v hne rest
      · rfl

/-- A key absent from an association list has no last value. -/
theorem lastVal_eq_none_of_not_key (k : List Char) :
    ∀ d : CatTable, k ∉ d.map Prod.fst → lastVal d k = none
  | [], _ => rfl
  | p :: rest, h => by
    rw [List.map_cons, List.mem_cons] at h
    push_neg at h
    have h3 : lastVal rest k = none := lastVal_eq_none_of_not_key k rest h.2
    unfold lastVal
    rw [h3]
    exact if_neg fun he => h.1 he.symm

/-- In an association list with pairwise-distinct keys, the last value of
a key is the value of its (unique) entry. -/
theorem lastVal_of_mem_nodup (k : List Char) (v : CatConfig) :
    ∀ d : CatTable, (d.map Prod.fst).Nodup → (k, v) ∈ d → lastVal d k = some v
  | [], _, hm => absurd hm (List.not_mem_nil _)
  | p :: rest, hnd, hm => by
    rw [List.map_cons, List.nodup_cons] at hnd
    rcases List.mem_cons.mp hm with he | hm'
    · subst he
      have hk : k ∉ rest.map Prod.fst := hnd.1
      unfold lastVal
      rw [lastVal_eq_none_of_not_key k rest hk]
      simp
    · unfold lastVal
      rw [lastVal_of_mem_nodup k v rest hnd.2 hm']

/-- Lookup in a Python-style merged dict: the value is the second
operand's (its last entry for the key) when present, the first
operand's otherwise. -/
theorem dictGet_dictMergeInto (k : List Char) :
    ∀ (b a : CatTable), dictGet (dictMergeInto a b) k =
      match lastVal b k with
      | some v => some v
      | none => dictGet a k
  | [], a => by simp [dictMergeInto, lastVal]
  | p :: rest, a => by
    have step : dictMergeInto a (p :: rest) = dictMergeInto (dictSet a p.1 p.2) rest := rfl
    rw [step, dictGet_dictMergeInto k rest (dictSet a p.1 p.2)]
    cases hl : lastVal rest k with
    | some v => simp [lastVal, hl]
    | none =>
      by_cases h : p.1 = k
      · subst h
        simp [lastVal, hl, dictGet_dictSet_self]
      · simp [lastVal, hl, if_neg h, dictGet_dictSet_ne p.1 k p.2 (fun hc => h hc.symm)]

/-- C1 (counterexample): on the text `"9999-99-99 01/02/2024"` the first
(highest-priority) date pattern class matches the substring
`"9999-99-99"`, that substring fails all six candidate formats, and yet
date extraction does not return absent: it falls back to the second
pattern class and returns 2024-01-02.  This refutes the claim that no
fallback to a later regex pattern class happens. -/
theorem C1_no_fallback_counterexample :
    reSearchTriple [4] [2, 1] [2, 1] "9999-99-99 01/02/2024".data = some "9999-99-99".data
      ∧ strptime6 "9999-99-99".data = none
      ∧ extract_date "9999-99-99 01/02/2024".data = some ⟨2024, 1, 2⟩ := by
  refine ⟨by decide, by decide, by decide⟩

/-- C1 (amended): if the first date pattern class position-matches some
substring and that substring fails all six candidate formats, date
extraction falls back to the later pattern classes: the result is
whatever the second pattern class, then the third, produce (absent only
when they also fail). -/
theorem C1_first_pattern_fails_falls_back (text m : List Char)
    (h1 : reSearchTriple [4] [2, 1] [2, 1] text = some m)
    (h2 : strptime6 m = none) :
    extract_date text =
      ((tryDatePattern [2, 1] [2, 1] [4] text).orElse fun _ =>
        tryDatePattern [2, 1] [2, 1] [2] text) := by
  unfold extract_date
  rw [show tryDatePattern [4] [2, 1] [2, 1] text = none by
    unfold tryDatePattern; rw [h1]; exact h2]
  rfl

/-- C1 (witness): the amended fallback theorem applied at the concrete
counterexample text. -/
theorem C1_first_pattern_fails_falls_back_witness :
    extract_date "9999-99-99 01/02/2024".data =
      ((tryDatePattern [2, 1] [2, 1] [4] "9999-99-99 01/02/2024".data).orElse fun _ =>
        tryDatePattern [2, 1] [2, 1] [2] "9999-99-99 01/02/2024".data) :=
  C1_first_pattern_fails_falls_back "9999-99-99 01/02/2024".data "9999-99-99".data
    (by decide) (by decide)

/-- C3 (counterexample): on a text of five blank lines followed by
`"Walmart"`, the code's merchant extraction returns absent — the blank
lines consume all five slots of the window — while the claimed procedure
(a window of the first 5 non-empty trimmed lines) returns `"Walmart"`. -/
theorem C3_window_counterexample :
    extract_merchant "\n\n\n\n\nWalmart".data = none
      ∧ merchantClaimNonEmpty5 "\n\n\n\n\nWalmart".data = some "Walmart".data := by
  refine ⟨by decide, by decide⟩

/-- C3 (amended): merchant extraction inspects exactly the first 5 lines
of the newline-split text — blank lines DO consume slots of the 5-line
window — trims each, and returns the first trimmed line surviving all
skip filters (a blank line never survives, failing the length filter),
or absent if none survives. -/
theorem C3_merchant_first5_raw_lines (text : List Char) :
    extract_merchant text = merchantSpecFirst5Raw text := by
  unfold extract_merchant merchantSpecFirst5Raw
  rw [findSome?_map_comp]
  congr 1
  funext line
  rw [merchantKeep_eq_not_skip]
  cases merchantSpecSkip (pyStrip line) <;> rfl

/-- C4: for every input text, interpretation terminates and never raises
(the embedding `parse_receipt_text` is a total function, mirroring that
every Python sub-extraction catches its own failures), and the `items`
field of the produced record has length at most 10. -/
theorem C4_items_at_most_ten (text : List Char) :
    (parse_receipt_text text).items.length ≤ 10 := by
  show (extract_items text).length ≤ 10
  unfold extract_items
  rw [List.length_take]
  exact min_le_left _ _

/-- C5: for every input text, the record produced by interpretation has
`amount` and `currency` either both present or both absent. -/
theorem C5_amount_currency_paired (text : List Char) :
    ((parse_receipt_text text).amount.isSome = (parse_receipt_text text).currency.isSome) := by
  show ((extract_amount_and_currency text).amount.isSome
    = (extract_amount_and_currency text).currency.isSome)
  unfold extract_amount_and_currency
  cases amountResult text <;> rfl

/-- C6: for any text containing the line `"Subtotal: $8.50"` and, at some
index `i`, the line `"Total: $9.18"`, with no line before index `i` on
which pass 1 fires, amount extraction returns amount 9.18 with currency
USD: a line containing "total" but not "subtotal" is consulted before
any subtotal-only line. -/
theorem C6_total_beats_subtotal (text : List Char) (i : Nat)
    (hi : i < (splitOnNl text).length)
    (_hsub : "Subtotal: $8.50".data ∈ splitOnNl text)
    (htot : (splitOnNl text).get ⟨i, hi⟩ = "Total: $9.18".data)
    (hearly : ∀ j (hj : j < i), pass1Line ((splitOnNl text).get ⟨j, Nat.lt_trans hj hi⟩) = none) :
    extract_amount_and_currency text =
      { amount := some (mkRat 459 50), currency := some "USD" } := by
  have h1 : (splitOnNl text).findSome? pass1Line = some (mkRat 459 50, "USD") := by
    refine findSome?_of_first pass1Line _ i hi _ ?_ hearly
    rw [htot]
    decide
  unfold extract_amount_and_currency amountResult
  rw [h1]
  rfl

/-- C6 (witness): the theorem applied to the two-line text
`"Subtotal: $8.50\nTotal: $9.18"` with the total line at index 1. -/
theorem C6_total_beats_subtotal_witness :
    extract_amount_and_currency "Subtotal: $8.50\nTotal: $9.18".data =
      { amount := some (mkRat 459 50), currency := some "USD" } :=
  C6_total_beats_subtotal "Subtotal: $8.50\nTotal: $9.18".data 1 (by decide) (by decide)
    (by decide)
    (fun j hj => by
      have h0 : j = 0 := by omega
      subst h0
      show pass1Line "Subtotal: $8.50".data = none
      decide)

/-- C7: on the text `"Amount: NT$100"` amount extraction returns amount
100 with currency NTD, not USD: the NT-marked pattern precedes the
bare-dollar default pattern in the fixed five-pattern order. -/
theorem C7_nt_beats_bare_dollar :
    extract_amount_and_currency "Amount: NT$100".data =
      { amount := some (mkRat 100 1), currency := some "NTD" } := by
  decide

/-- C8: classifier keyword matching is word-boundary anchored: the text
"restaurantish" does not match the keyword "restaurant" and classifies
as "Other", while "the restaurant downtown" matches it and returns the
rule's category "Food & Dining". -/
theorem C8_keyword_word_boundary :
    categorize_receipt [] { raw_text := some "restaurantish".data } = "Other".data
      ∧ categorize_receipt [] { raw_text := some "the restaurant downtown".data }
          = "Food & Dining".data := by
  refine ⟨by decide, by decide⟩

/-- C9: the dollar sign of the NT/HK/US currency patterns is optional in
the implementation, so amount extraction can fire with no currency
symbol present: on the single-line text `"Total discount 5.00"` the
case-insensitive "nt" inside "discount" followed by the number satisfies
the NTD pattern, giving amount 5.00 with currency NTD. -/
theorem C9_optional_dollar_nt_inside_discount :
    extract_amount_and_currency "Total discount 5.00".data =
      { amount := some (mkRat 5 1), currency := some "NTD" } := by
  decide

/-- C2 (code bug, evaluated at the failing input): adding a custom
category named "Food & Dining" — colliding with the default category —
with keyword "zzz" and classifying a receipt whose text is "zzz" returns
"Other": the combined table `\x7b**custom, **defaults\x7d` lets the
default entry's sets win on the collision, so the custom keyword set is
never evaluated.  The spec-modelled classifier with custom-precedence
merge returns "Food & Dining" on the same input. -/
theorem C2_custom_collision_ignored :
    categorize_receipt (add_custom_category [] "Food & Dining".data ["zzz".data] [])
        { raw_text := some "zzz".data } = "Other".data
      ∧ categorize_receipt_specCustomPrecedence
          (add_custom_category [] "Food & Dining".data ["zzz".data] [])
          { raw_text := some "zzz".data } = "Food & Dining".data := by
  refine ⟨by decide, by decide⟩

/-- C10: after `add_custom_category` with a name colliding with a default
category, `get_all_categories` maps that name to the custom
keyword/merchant sets, while the combined table that
`categorize_receipt` evaluates maps the same name to the default entry's
sets — the two merges go in opposite directions. -/
theorem C10_merge_directions_disagree (name : List Char) (cfg : CatConfig)
    (kws ms : List (List Char)) (h : (name, cfg) ∈ default_categories) :
    dictGet (get_all_categories (add_custom_category [] name kws ms)) name
        = some { keywords := kws, merchants := ms }
      ∧ dictGet (combinedTable (add_custom_category [] name kws ms)) name = some cfg := by
  have hlast : lastVal default_categories name = some cfg :=
    lastVal_of_mem_nodup name cfg default_categories (by decide) h
  constructor
  · show dictGet (dictMergeInto default_categories (dictSet [] name ⟨kws, ms⟩)) name = _
    rw [dictGet_dictMergeInto]
    simp [dictSet, lastVal]
  · show dictGet (dictMergeInto (dictSet [] name ⟨kws, ms⟩) default_categories) name = some cfg
    rw [dictGet_dictMergeInto, hlast]

/-- C10 (witness): the theorem applied at the colliding name
"Food & Dining" with custom keyword list ["zzz"] and no merchants. -/
theorem C10_merge_directions_disagree_witness :
    dictGet (get_all_categories (add_custom_category [] "Food & Dining".data ["zzz".data] []))
        "Food & Dining".data = some { keywords := ["zzz".data], merchants := [] }
      ∧ dictGet (combinedTable (add_custom_category [] "Food & Dining".data ["zzz".data] []))
          "Food & Dining".data = some
            { keywords := ["restaurant".data, "餐廳".data, "cafe".data, "咖啡".data, "food".data,
                           "食物".data, "dining".data, "meal".data, "飯店".data, "bar".data,
                           "酒吧".data],
              merchants := ["mcdonalds".data, "starbucks".data, "subway".data, "麥當勞".data,
                            "星巴克".data] } :=
  C10_merge_directions_disagree "Food & Dining".data _ ["zzz".data] [] (by decide)

end ReceiptApp
